import Mathlib

/-!
Verification of the data-aggregation pipeline of the fantasy-league
report generator (`compose_email.py`).

The upstream JSON payloads are modelled by the inductive type `JVal`;
Python floats are modelled as exact rationals (`ℚ`), Python `round(x, n)`
as rounding `x * 10^n` to the nearest integer.  Python dictionaries are
association lists; `dict.get` returns an `Option JVal` (`none` plays the
role of the Python `None` that `get` yields for an absent key).

Modelled domain: the upstream schema stores numbers, strings, booleans,
nulls, objects and arrays in the usual places (team ids are scalars,
`schedule` is an array, name fields are strings, ...).  On payloads
outside that schema the Python code raises (for example iterating a
numeric `schedule`, or calling `.strip()` on a numeric `location`);
such inputs are outside the modelled domain and the model returns a
harmless default there instead.
-/

/-- A JSON-like value as handled by the Python pipeline. -/
inductive JVal where
  | null : JVal
  | num (q : ℚ) : JVal
  | str (s : String) : JVal
  | bool (b : Bool) : JVal
  | obj (fields : List (String × JVal)) : JVal
  | arr (items : List JVal) : JVal

/-- First-match lookup in an association list (Python dict keys are unique,
so first-match agrees with dict lookup on well-formed objects). -/
def lookupField : List (String × JVal) → String → Option JVal
  | [], _ => none
  | (k, v) :: fs, key => if k = key then some v else lookupField fs key

/-- `d.get(key)`: `none` both when the receiver is not an object and when
the key is absent. -/
def JVal.get : JVal → String → Option JVal
  | .obj fs, key => lookupField fs key
  | _, _ => none

/-- `key in d` (key presence, independent of truthiness of the value). -/
def JVal.hasKey (j : JVal) (key : String) : Bool :=
  (j.get key).isSome

def JVal.isObj : JVal → Bool
  | .obj _ => true
  | _ => false

def JVal.isNull : JVal → Bool
  | .null => true
  | _ => false

/-- Python truthiness of a JSON value. -/
def JVal.truthy : JVal → Bool
  | .null => false
  | .num q => decide (q ≠ 0)
  | .str s => decide (s ≠ "")
  | .bool b => b
  | .obj fs => !fs.isEmpty
  | .arr xs => !xs.isEmpty

/-- The numeric reading used by `isinstance(v, (int, float))` checks.
Python booleans are instances of `int`, so `true`/`false` read as 1/0. -/
def JVal.num? : JVal → Option ℚ
  | .num q => some q
  | .bool b => some (if b then 1 else 0)
  | _ => none

/-- Truncation toward zero, as Python `int()` on a float. -/
def qtrunc (q : ℚ) : ℤ :=
  if 0 ≤ q then ⌊q⌋ else ⌈q⌉

/-- Python `int(v)` on the scalar values that do not raise: numbers
truncate toward zero, booleans read as 1/0, decimal strings parse. -/
def JVal.toInt? : JVal → Option ℤ
  | .num q => some (qtrunc q)
  | .bool b => some (if b then 1 else 0)
  | .str s => s.toInt?
  | _ => none

/-- Python `x or y` where `x : Option JVal` stands for a value-or-`None`. -/
def pyOr (x y : Option JVal) : Option JVal :=
  match x with
  | some v => if v.truthy then some v else y
  | none => y

/-- Python `x or {}` (used before a `.get` call). -/
def pyOrEmptyObj (x : Option JVal) : JVal :=
  match x with
  | some v => if v.truthy then v else .obj []
  | none => .obj []

/-- Python `float(x)` on the values arriving at the modelled call sites
(numbers and booleans; a non-numeric value there raises in Python and is
outside the modelled domain). -/
def pyFloat (v : JVal) : ℚ :=
  (v.num?).getD 0

/-- Python `round(x, 2)` (the model rounds exactly on rationals). -/
def round2 (q : ℚ) : ℚ :=
  (round (q * 100) : ℚ) / 100

/-- Python `round(x, 3)`. -/
def round3 (q : ℚ) : ℚ :=
  (round (q * 1000) : ℚ) / 1000

/-- A hashable scalar, as used for Python dict keys and `==` comparisons
against the integer slot/position constants.  Python compares numbers and
booleans by value across types (`True == 1`, `20.0 == 20`), which the
single `num` constructor captures. -/
inductive PKey where
  | num (q : ℚ) : PKey
  | str (s : String) : PKey
deriving DecidableEq, Repr

/-- The scalar key a JSON value hashes/compares as, when it has one. -/
def JVal.key? : JVal → Option PKey
  | .num q => some (.num q)
  | .bool b => some (.num (if b then 1 else 0))
  | .str s => some (.str s)
  | _ => none

/-- Render an integral value the way a Python f-string renders an int
(ids are integers in the upstream schema). -/
def pyShowKey : PKey → String
  | .num q => if q.den = 1 then toString q.num else toString q.num ++ "/" ++ toString q.den
  | .str s => s

/-- Render a float the way Python prints it, for the integral floats the
pipeline actually formats; non-integral rationals get a fraction rendering
(only presentation detail strings depend on this). -/
def pyShowFloat (q : ℚ) : String :=
  if q.den = 1 then toString q.num ++ ".0"
  else toString q.num ++ "/" ++ toString q.den

-- ==============================
-- Python str.strip modelled
-- ==============================

/-- Drop leading and trailing whitespace from a character list. -/
def stripChars (l : List Char) : List Char :=
  ((l.dropWhile Char.isWhitespace).reverse.dropWhile Char.isWhitespace).reverse

/-- Python `s.strip()`. -/
def pyStrip (s : String) : String :=
  ⟨stripChars s.data⟩

/-- `(t.get(k) or "").strip()`: absent, null and falsy values give `""`;
a truthy non-string value there raises in Python (outside the domain). -/
def strField (t : JVal) (k : String) : String :=
  match t.get k with
  | some (.str s) => pyStrip s
  | _ => ""

-- ==============================
-- Team directory
-- ==============================

/-- `_team_display_name` from the source: resolve a display name from a
raw team record, falling back across
location+nickname → name → abbreviation → synthesized name. -/
def team_display_name (t : JVal) : String :=
  let loc := strField t "location"
  let nick := strField t "nickname"
  let nm := strField t "name"
  let abbr := strField t "abbrev"
  if loc ≠ "" ∨ nick ≠ "" then pyStrip (loc ++ " " ++ nick)
  else if nm ≠ "" then nm
  else if abbr ≠ "" then abbr
  else
    match t.get "id" with
    | some v => if v.isNull then "Team" else "Team " ++ ((v.key?).map pyShowKey).getD "?"
    | none => "Team"

/-- The id a raw team record is keyed by in the directory: present and
non-null ids only (a non-scalar id is unhashable and raises in Python). -/
def teamIdKey (t : JVal) : Option PKey :=
  match t.get "id" with
  | some v => if v.isNull then none else v.key?
  | none => none

/-- The team-name dictionary comprehension: one pair per record with a
non-null id, in input order. -/
def team_name_map (teams : List JVal) : List (PKey × String) :=
  teams.filterMap (fun t => (teamIdKey t).map (fun k => (k, team_display_name t)))

/-- Dict lookup on the association pairs: the last binding of a key wins,
as in a Python dict built left to right. -/
def dictFind (m : List (PKey × String)) (k : PKey) : Option String :=
  (m.reverse.find? (fun p => decide (p.1 = k))).map (fun p => p.2)

/-- `team_map.get(hid, "Team " + str(hid))`. -/
def teamNameOr (m : List (PKey × String)) (k : Option PKey) : String :=
  match k with
  | some key => (dictFind m key).getD ("Team " ++ pyShowKey key)
  | none => "Team None"

-- ==============================
-- Matchup summarizer
-- ==============================

/-- Winner classification of a matchup. -/
inductive Winner where
  | home : Winner
  | away : Winner
  | tie : Winner
  | undecided : Winner
deriving DecidableEq, Repr

/-- A normalized matchup record, as emitted by `summarize_matchups`. -/
structure Matchup where
  home_id : Option PKey
  away_id : Option PKey
  home : String
  away : String
  home_pts : ℚ
  away_pts : ℚ
  winner : Winner
  abs_margin : ℚ
deriving DecidableEq, Repr

/-- `scoreboard.get("schedule") or []` followed by iteration: the list of
schedule entries (a truthy non-array there raises in Python). -/
def scheduleOf (j : JVal) : List JVal :=
  match j.get "schedule" with
  | some (.arr xs) => xs
  | _ => []

/-- `float(side.get("totalPoints", 0) or 0)`: the raw point total of one
side of a schedule entry. -/
def sidePoints (side : JVal) : ℚ :=
  match side.get "totalPoints" with
  | some v => if v.truthy then pyFloat v else 0
  | none => 0

/-- The raw (un-rounded) point total of the named side of a raw schedule
entry. -/
def rawPts (m : JVal) (side : String) : ℚ :=
  sidePoints ((m.get side).getD .null)

/-- `(m.get("winner") or "UNDECIDED").upper()` (a truthy non-string winner
value raises in Python, outside the domain). -/
def winnerFlag (m : JVal) : String :=
  match m.get "winner" with
  | some (.str s) => if s = "" then "UNDECIDED" else s.toUpper
  | _ => "UNDECIDED"

/-- `m.get("matchupPeriodId") != int(week)` negated: Python `==` between
the raw id value and the requested week compares numerically. -/
def matchesWeek (m : JVal) (week : ℤ) : Bool :=
  ((m.get "matchupPeriodId").bind JVal.num?) == some (week : ℚ)

/-- The winner resolution of `summarize_matchups`, on the raw totals and
the normalized flag. -/
def resolveWinner (flag : String) (home_pts away_pts : ℚ) : Winner :=
  if flag = "HOME" ∧ home_pts ≠ away_pts then .home
  else if flag = "AWAY" ∧ home_pts ≠ away_pts then .away
  else if home_pts > away_pts then .home
  else if away_pts > home_pts then .away
  else if home_pts = away_pts ∧ flag ≠ "UNDECIDED" then .tie
  else .undecided

/-- The per-entry body of the `summarize_matchups` loop: skip entries of a
different matchup period or lacking a side, otherwise build the record. -/
def summarize_entry (team_map : List (PKey × String)) (week : ℤ) (m : JVal) :
    Option Matchup :=
  if ¬ matchesWeek m week then none
  else if ¬ (m.hasKey "away" ∧ m.hasKey "home") then none
  else
    let home := (m.get "home").getD .null
    let away := (m.get "away").getD .null
    let hid := (home.get "teamId").bind JVal.key?
    let aid := (away.get "teamId").bind JVal.key?
    let home_pts := sidePoints home
    let away_pts := sidePoints away
    let flag := winnerFlag m
    some
      { home_id := hid
        away_id := aid
        home := teamNameOr team_map hid
        away := teamNameOr team_map aid
        home_pts := round2 home_pts
        away_pts := round2 away_pts
        winner := resolveWinner flag home_pts away_pts
        abs_margin := round2 |home_pts - away_pts| }

/-- `summarize_matchups` from the source. -/
def summarize_matchups (scoreboard : JVal) (teams : List JVal) (week : ℤ) :
    List Matchup :=
  let team_map := team_name_map teams
  (scheduleOf scoreboard).filterMap (summarize_entry team_map week)

-- ==============================
-- Standings extractor
-- ==============================

/-- A normalized standings row. -/
structure StandingsRow where
  name : String
  wins : ℤ
  losses : ℤ
  ties : ℤ
  points_for : ℚ
  points_against : ℚ
deriving DecidableEq, Repr

/-- `int(v or 0)` on a value-or-`None`. -/
def pyIntOr0 (v : Option JVal) : ℤ :=
  match v with
  | some j => if j.truthy then (j.toInt?).getD 0 else 0
  | none => 0

/-- `float(v or 0)` on a value-or-`None`. -/
def pyFloatOr0 (v : Option JVal) : ℚ :=
  match v with
  | some j => if j.truthy then pyFloat j else 0
  | none => 0

/-- `t.get(key, fallback)`: a present key wins even when its value is
null; only an absent key falls back. -/
def getWithDefault (t : JVal) (key : String) (fallback : Option JVal) :
    Option JVal :=
  match t.get key with
  | some v => some v
  | none => fallback

/-- `get_record_fields` from `extract_standings`: the overall record read
from `record.overall` with entry-level `overallWins`-style fallbacks. -/
def get_record_fields (t : JVal) : ℤ × ℤ × ℤ × ℚ :=
  let rec0 := pyOrEmptyObj ((pyOrEmptyObj (t.get "record")).get "overall")
  let wins := getWithDefault t "overallWins" (rec0.get "wins")
  let losses := getWithDefault t "overallLosses" (rec0.get "losses")
  let ties := getWithDefault t "overallTies" (rec0.get "ties")
  let pa := rec0.get "pointsAgainst"
  (pyIntOr0 wins, pyIntOr0 losses, pyIntOr0 ties, pyFloatOr0 pa)

/-- `get_points_for` from `extract_standings`: scalar `points`, then the
nested `points.scored` shape, then `valuesByStat["0"]`, else `0.0`. -/
def get_points_for (t : JVal) : ℚ :=
  match t.get "points" with
  | some (.num q) => q
  | some (.bool b) => if b then 1 else 0
  | some (.obj fs) =>
      (match (JVal.obj fs).get "scored" with
       | some (.num q) => q
       | some (.bool b) => if b then 1 else 0
       | _ => valuesByStat0 t)
  | _ => valuesByStat0 t
where
  valuesByStat0 (t : JVal) : ℚ :=
    match (pyOrEmptyObj (t.get "valuesByStat")).get "0" with
    | some (.num q) => q
    | some (.bool b) => if b then 1 else 0
    | _ => 0

/-- One standings row built from one raw team record. -/
def standingsRowOf (t : JVal) : StandingsRow :=
  let r := get_record_fields t
  { name := team_display_name t
    wins := r.1
    losses := r.2.1
    ties := r.2.2.1
    points_for := round2 (get_points_for t)
    points_against := round2 r.2.2.2 }

/-- The descending-sort comparator `key=(wins, points_for), reverse=True`:
a row may precede another when its (wins, points-for) pair is
lexicographically at least the other's.  Ties and points-against play no
role. -/
def standingsLe (a b : StandingsRow) : Bool :=
  decide (b.wins < a.wins ∨ (b.wins = a.wins ∧ b.points_for ≤ a.points_for))

/-- `extract_standings` from the source: one row per team, sorted by
(wins, points-for) descending with a stable sort. -/
def extract_standings (teams : List JVal) : List StandingsRow :=
  (teams.map standingsRowOf).mergeSort standingsLe

-- ==============================
-- Roster / player aggregator
-- ==============================

def LINEUP_SLOT_BENCH : ℚ := 20
def LINEUP_SLOT_IR : ℚ := 21
def LINEUP_SLOT_FLEX : ℚ := 23
def POS_QB : ℚ := 0
def POS_RB : ℚ := 2
def POS_TE : ℚ := 6
def POS_DST : ℚ := 16
def POS_K : ℚ := 17

/-- A parsed roster entry. -/
structure PlayerEntry where
  name : String
  posId : Option PKey
  slotId : Option PKey
  points : ℚ
  proj : Option ℚ
deriving DecidableEq, Repr

/-- The loop `for k in keys: v = j.get(k); if isinstance(v, (int, float)):
return float(v)`: the first numerically-valued field among `keys`. -/
def firstNumField (j : JVal) (keys : List String) : Option ℚ :=
  keys.findSome? (fun k => (j.get k).bind JVal.num?)

/-- The applied-total field names tried by `_extract_points`. -/
def totalKeys : List String :=
  ["appliedStatTotal", "appliedTotal", "points", "totalPoints"]

/-- Does a per-period stat record belong to the requested week as an
actual (statSourceId 0) record?  `int(...)` raising on a missing or
non-numeric scoring period is the `except: continue` path. -/
def statMatch (st : JVal) (wk : ℤ) : Bool :=
  match (st.get "scoringPeriodId").bind JVal.toInt? with
  | some i => decide (i = wk) && (((st.get "statSourceId").bind JVal.key?) == some (.num 0))
  | none => false

/-- `st.get("appliedTotal") or st.get("appliedStatTotal") or st.get("points")`
read as a number when the chain produces one. -/
def statVal (st : JVal) : Option ℚ :=
  (pyOr (pyOr (st.get "appliedTotal") (st.get "appliedStatTotal")) (st.get "points")).bind JVal.num?

/-- Scan `player.stats` (when it is a list) for the first actual record of
the requested week carrying a numeric applied value. -/
def statLookup (player : JVal) (wk : ℤ) : Option ℚ :=
  match player.get "stats" with
  | some (.arr l) => l.findSome? (fun st => if statMatch st wk then statVal st else none)
  | _ => none

/-- Sum the numeric values of `e.appliedStats` when at least one exists. -/
def sumApplied (e : JVal) : Option ℚ :=
  match e.get "appliedStats" with
  | some (.obj fs) =>
      let nums := fs.filterMap (fun p => JVal.num? p.2)
      if nums.isEmpty then none else some nums.sum
  | _ => none

/-- `_extract_points` from the source, with the early returns of the
Python function rendered as a nested match. -/
def extract_points (e ppe player : JVal) (wk : ℤ) : ℚ :=
  match firstNumField e totalKeys with
  | some v => v
  | none =>
    match (if ppe.isObj then firstNumField ppe totalKeys else none) with
    | some v => v
    | none =>
      match statLookup player wk with
      | some v => v
      | none =>
        match sumApplied e with
        | some v => v
        | none => 0

/-- The projection field names tried inside a ratings record. -/
def projKeys : List String :=
  ["totalProjection", "totalProjectedPoints", "totalProjectPoints", "totalProjectionPoints"]

/-- `container.ratings[wk_key or "0"]` scanned for a numeric projection
field, when `ratings` is an object. -/
def ratingsLookup (container : JVal) (wk_key : String) : Option ℚ :=
  match container.get "ratings" with
  | some (.obj fs) =>
      let rW := pyOrEmptyObj (pyOr ((JVal.obj fs).get wk_key) ((JVal.obj fs).get "0"))
      firstNumField rW projKeys
  | _ => none

/-- `_extract_proj` from the source: entry ratings, then pool-entry
ratings, then direct entry-level projection fields. -/
def extract_proj (e ppe : JVal) (wk_key : String) : Option ℚ :=
  match ratingsLookup e wk_key with
  | some v => some v
  | none =>
    match (if ppe.isObj then ratingsLookup ppe wk_key else none) with
    | some v => some v
    | none => firstNumField e ["projectedPoints", "projectedTotal", "pointsProjected"]

/-- First truthy of a value chain read as a string (used for player
names). -/
def pyStrOrD (v : Option JVal) (d : String) : String :=
  match v with
  | some (.str s) => s
  | _ => d

/-- The body of the `parse_entries` loop for one raw entry; a non-object
entry triggers the `except: continue` path (its `lineupSlotId` access
raises) and is skipped. -/
def parse_entry (wk : ℤ) (e : JVal) : Option PlayerEntry :=
  if ¬ e.isObj then none
  else
    let ppe := (e.get "playerPoolEntry").getD (.obj [])
    let player := if ppe.isObj then (ppe.get "player").getD (.obj []) else .obj []
    let full := pyStrOrD (pyOr (player.get "fullName") (player.get "name")) "Player"
    let pts := extract_points e ppe player wk
    let proj := extract_proj e ppe (toString wk)
    some
      { name := full
        posId := (player.get "defaultPositionId").bind JVal.key?
        slotId := (e.get "lineupSlotId").bind JVal.key?
        points := round2 pts
        proj := proj }

/-- `parse_entries` from the source. -/
def parse_entries (wk : ℤ) (l : List JVal) : List PlayerEntry :=
  l.filterMap (parse_entry wk)

/-- `_safe_entries` (the inner definition used by the aggregator): the
roster container under either nesting convention, then its `entries`
list. -/
def safe_entries (side : JVal) : List JVal :=
  let r := pyOr (side.get "rosterForCurrentScoringPeriod") (side.get "rosterForMatchupPeriod")
  match (pyOrEmptyObj r).get "entries" with
  | some (.arr xs) => xs
  | _ => []

/-- A per-team, per-week row with player-level context. -/
structure TeamWeekRow where
  team : String
  pts : ℚ
  opp : String
  opp_pts : ℚ
  won : Bool
  abs_margin : ℚ
  starters : List PlayerEntry
  bench : List PlayerEntry
  proj : Option ℚ
deriving DecidableEq, Repr

/-- Is a lineup slot excluded from the starters (bench or injured
reserve)?  Comparison is the Python `in` against the two slot ids. -/
def isExcludedSlot (s : Option PKey) : Bool :=
  s == some (.num LINEUP_SLOT_BENCH) || s == some (.num LINEUP_SLOT_IR)

/-- `sum_proj`: the starters' summed projections, absent when no starter
has a projection. -/
def sum_proj (starters : List PlayerEntry) : Option ℚ :=
  let projs := starters.filterMap (fun p => p.proj)
  if projs.isEmpty then none else some (round2 projs.sum)

/-- The two rows contributed by one boxscore schedule entry of the
requested week (and none by an entry of a different week). -/
def boxscore_rows_entry (team_map : List (PKey × String)) (wk : ℤ) (m : JVal) :
    List TeamWeekRow :=
  if ¬ matchesWeek m wk then []
  else
    let home := pyOrEmptyObj (m.get "home")
    let away := pyOrEmptyObj (m.get "away")
    let hid := (home.get "teamId").bind JVal.key?
    let aid := (away.get "teamId").bind JVal.key?
    let h_entries := parse_entries wk (safe_entries home)
    let a_entries := parse_entries wk (safe_entries away)
    let h_starters := h_entries.filter (fun x => !(isExcludedSlot x.slotId))
    let h_bench := h_entries.filter (fun x => isExcludedSlot x.slotId)
    let a_starters := a_entries.filter (fun x => !(isExcludedSlot x.slotId))
    let a_bench := a_entries.filter (fun x => isExcludedSlot x.slotId)
    let hpts := sidePoints home
    let apts := sidePoints away
    let margin := |hpts - apts|
    [ { team := teamNameOr team_map hid
        pts := round2 hpts
        opp := teamNameOr team_map aid
        opp_pts := round2 apts
        won := decide (hpts > apts)
        abs_margin := round2 margin
        starters := h_starters
        bench := h_bench
        proj := sum_proj h_starters },
      { team := teamNameOr team_map aid
        pts := round2 apts
        opp := teamNameOr team_map hid
        opp_pts := round2 hpts
        won := decide (apts > hpts)
        abs_margin := round2 margin
        starters := a_starters
        bench := a_bench
        proj := sum_proj a_starters } ]

/-- `build_week_stats_from_boxscore` from the source: absent exactly on a
non-object payload, otherwise two rows per schedule entry of the
requested week. -/
def build_week_stats_from_boxscore (boxscore : JVal) (teams : List JVal) (week : ℤ) :
    Option (List TeamWeekRow) :=
  if ¬ boxscore.isObj then none
  else
    let team_map := team_name_map teams
    some ((scheduleOf boxscore).flatMap (boxscore_rows_entry team_map week))

-- ==============================
-- Weekly challenge engine
-- ==============================

/-- `if not week_rows:` — `week_rows` is falsy when it is `None` or the
empty list. -/
def pyFalsyRows (wr : Option (List TeamWeekRow)) : Bool :=
  match wr with
  | none => true
  | some l => l.isEmpty

def wrList (wr : Option (List TeamWeekRow)) : List TeamWeekRow :=
  wr.getD []

/-- Python `max(l, key=key)` on a possibly-empty list: the first element
whose key no later element strictly exceeds. -/
def maxFirstBy {α : Type} (key : α → ℚ) : List α → Option α
  | [] => none
  | x :: xs => some (xs.foldl (fun b a => if key a > key b then a else b) x)

/-- Python `min(l, key=key)` on a possibly-empty list. -/
def minFirstBy {α : Type} (key : α → ℚ) : List α → Option α
  | [] => none
  | x :: xs => some (xs.foldl (fun b a => if key a < key b then a else b) x)

/-- One step of the `worst = None; ... if worst is None or pts < worst[...]`
scan: take the candidate when none is held yet or when its key is
strictly smaller. -/
def optMinStep {α : Type} (key : α → ℚ) (acc : Option α) (c : α) : Option α :=
  match acc with
  | none => some c
  | some b => if key c < key b then some c else acc

/-- The `best = None; for r ...: for p ...:` scan of the player rules:
first-encountered strict maximum of `p.points` over the picked players of
each row, tagged with the owning team. -/
def scanPlayersMax (rows : List TeamWeekRow) (pick : TeamWeekRow → List PlayerEntry) :
    Option (String × PlayerEntry) :=
  rows.foldl
    (fun acc r =>
      (pick r).foldl
        (fun acc p =>
          match acc with
          | none => some (r.team, p)
          | some b => if p.points > b.2.points then some (r.team, p) else acc)
        acc)
    none

/-- The `worst = None; ...` scan of the week-3 rule: first-encountered
strict minimum of `p.points`. -/
def scanPlayersMin (rows : List TeamWeekRow) (pick : TeamWeekRow → List PlayerEntry) :
    Option (String × PlayerEntry) :=
  rows.foldl
    (fun acc r =>
      (pick r).foldl
        (fun acc p => optMinStep (fun c => c.2.points) acc (r.team, p))
        acc)
    none

/-- A rule result: (title, winning team, detail text). -/
def RuleResult : Type := String × String × String

def highest_scoring_team (matchups : List Matchup) : Option RuleResult :=
  let all_rows := matchups.flatMap (fun m => [(m.home, m.home_pts), (m.away, m.away_pts)])
  (maxFirstBy (fun r => r.2) all_rows).map
    (fun r => ("Highest scoring team", r.1, pyShowFloat r.2 ++ " pts"))

def team_with_highest_scoring_player_starters_incl_dst
    (week_rows : Option (List TeamWeekRow)) : Option RuleResult :=
  if pyFalsyRows week_rows then none
  else
    (scanPlayersMax (wrList week_rows) (fun r => r.starters)).map
      (fun b => ("Highest scoring player (starter, D/ST incl.)", b.1,
        b.2.name ++ " — " ++ pyShowFloat b.2.points ++ " pts"))

def team_with_highest_scoring_bench_player
    (week_rows : Option (List TeamWeekRow)) : Option RuleResult :=
  if pyFalsyRows week_rows then none
  else
    (scanPlayersMin (wrList week_rows) (fun r => r.bench)).map
      (fun b => ("Highest scoring bench player", b.1,
        b.2.name ++ " — " ++ pyShowFloat b.2.points ++ " pts"))

def smallest_margin_of_victory (matchups : List Matchup) : Option RuleResult :=
  let winners := matchups.filter (fun m => decide (m.winner = .home ∨ m.winner = .away))
  (minFirstBy (fun m => m.abs_margin) winners).map
    (fun m => ("Smallest margin of victory",
      (if m.winner = .home then m.home else m.away),
      "margin " ++ pyShowFloat m.abs_margin))

def widest_margin_of_victory (matchups : List Matchup) : Option RuleResult :=
  let winners := matchups.filter (fun m => decide (m.winner = .home ∨ m.winner = .away))
  (maxFirstBy (fun m => m.abs_margin) winners).map
    (fun m => ("Widest margin of victory",
      (if m.winner = .home then m.home else m.away),
      "margin " ++ pyShowFloat m.abs_margin))

def highest_scoring_starting_k (week_rows : Option (List TeamWeekRow)) : Option RuleResult :=
  if pyFalsyRows week_rows then none
  else
    (scanPlayersMax (wrList week_rows)
        (fun r => r.starters.filter (fun p => p.posId == some (.num POS_K)))).map
      (fun b => ("Highest scoring starting K", b.1,
        b.2.name ++ " — " ++ pyShowFloat b.2.points ++ " pts"))

def highest_scoring_starting_qb (week_rows : Option (List TeamWeekRow)) : Option RuleResult :=
  if pyFalsyRows week_rows then none
  else
    (scanPlayersMax (wrList week_rows)
        (fun r => r.starters.filter (fun p => p.posId == some (.num POS_QB)))).map
      (fun b => ("Highest scoring starting QB", b.1,
        b.2.name ++ " — " ++ pyShowFloat b.2.points ++ " pts"))

def most_points_scored_in_losing_effort (matchups : List Matchup) : Option RuleResult :=
  let rows := matchups.filterMap (fun m =>
    if m.winner = .home then some (m.away, m.away_pts)
    else if m.winner = .away then some (m.home, m.home_pts)
    else none)
  (maxFirstBy (fun r => r.2) rows).map
    (fun r => ("Most points in a losing effort", r.1, pyShowFloat r.2 ++ " pts"))

/-- Record rendering `f"{wins}-{losses}"` plus a ties suffix when the tie
count is truthy. -/
def recordStr (wins losses ties : ℤ) : String :=
  toString wins ++ "-" ++ toString losses ++
    (if ties ≠ 0 then "-" ++ toString ties else "")

def first_place_after_week9 (week : ℤ) (standings : List StandingsRow) : Option RuleResult :=
  if week < 9 ∨ standings.isEmpty then none
  else
    match standings with
    | [] => none
    | top :: _ =>
      let ties := if top.ties ≠ 0 then "-" ++ toString top.ties else ""
      some ("First place overall (after 9 weeks)", top.name,
        toString top.wins ++ "-" ++ toString top.losses ++ ties ++ ", PF " ++
          pyShowFloat top.points_for)

def team_with_dst_most_points (week_rows : Option (List TeamWeekRow)) : Option RuleResult :=
  if pyFalsyRows week_rows then none
  else
    (scanPlayersMax (wrList week_rows)
        (fun r => r.starters.filter (fun p => p.posId == some (.num POS_DST)))).map
      (fun b => ("D/ST with most points", b.1,
        b.2.name ++ " — " ++ pyShowFloat b.2.points ++ " pts"))

def highest_combined_starting_rb_points_incl_flex
    (week_rows : Option (List TeamWeekRow)) : Option RuleResult :=
  if pyFalsyRows week_rows then none
  else
    let result := (wrList week_rows).foldl
      (fun (acc : Option String × ℚ) r =>
        let total := (r.starters.filter (fun p => p.posId == some (.num POS_RB))).foldl
          (fun t p => t + p.points) 0
        if total > acc.2 then (some r.team, total) else acc)
      (none, -1)
    match result.1 with
    | none => none
    | some t => some ("Highest combined starting RB points", t,
        pyShowFloat (round2 result.2) ++ " pts")

/-- The projection a starter contributes in the week-12 rule: the chain
`p.get("projectedPoints") or p.get("projectedTotal") or p.get("proj") or
p.get("pointsProjected")` over the parsed player item, whose only
projection-like key is `proj`; a zero projection is falsy and drops out. -/
def week12proj (p : PlayerEntry) : Option ℚ :=
  match p.proj with
  | some q => if q ≠ 0 then some q else none
  | none => none

def team_closest_to_projected_total
    (week_rows : Option (List TeamWeekRow)) : Option RuleResult :=
  if pyFalsyRows week_rows then none
  else
    let best := (wrList week_rows).foldl
      (fun (acc : Option (String × ℚ × ℚ × ℚ)) r =>
        let projs := r.starters.filterMap week12proj
        if projs.isEmpty then acc
        else
          let proj_sum := projs.sum
          let diff := |r.pts - proj_sum|
          match acc with
          | none => some (r.team, round2 proj_sum, r.pts, round2 diff)
          | some b =>
            if diff < b.2.2.2 then some (r.team, round2 proj_sum, r.pts, round2 diff)
            else acc)
      none
    best.map (fun b => ("Closest to projected total", b.1,
      "diff " ++ pyShowFloat b.2.2.2 ++ " (proj " ++ pyShowFloat b.2.1 ++ " vs " ++
        pyShowFloat b.2.2.1 ++ ")"))

def most_points_against_cumulative (standings : List StandingsRow) : Option RuleResult :=
  (maxFirstBy (fun t => t.points_against) standings).map
    (fun r => ("Most points against (season)", r.name,
      pyShowFloat r.points_against ++ " against"))

def lowest_scoring_team (matchups : List Matchup) : Option RuleResult :=
  let all_rows := matchups.flatMap (fun m => [(m.home, m.home_pts), (m.away, m.away_pts)])
  (minFirstBy (fun r => r.2) all_rows).map
    (fun r => ("Lowest weekly score", r.1, pyShowFloat r.2 ++ " pts"))

def highest_scoring_flex (week_rows : Option (List TeamWeekRow)) : Option RuleResult :=
  if pyFalsyRows week_rows then none
  else
    (scanPlayersMax (wrList week_rows)
        (fun r => r.starters.filter (fun p => p.slotId == some (.num LINEUP_SLOT_FLEX)))).map
      (fun b => ("Highest scoring FLEX", b.1,
        b.2.name ++ " — " ++ pyShowFloat b.2.points ++ " pts"))

def highest_scoring_te (week_rows : Option (List TeamWeekRow)) : Option RuleResult :=
  if pyFalsyRows week_rows then none
  else
    (scanPlayersMax (wrList week_rows)
        (fun r => r.starters.filter (fun p => p.posId == some (.num POS_TE)))).map
      (fun b => ("Highest scoring TE", b.1,
        b.2.name ++ " — " ++ pyShowFloat b.2.points ++ " pts"))

def first_team_out_overall (standings : List StandingsRow) : Option RuleResult :=
  if standings.isEmpty ∨ standings.length < 7 then none
  else
    match standings.get? 6 with
    | none => none
    | some t =>
      some ("First Team Out", t.name,
        "7th place • " ++ recordStr t.wins t.losses t.ties ++ ", PF " ++
          pyShowFloat t.points_for)

/-- The challenge record returned for a week with a decided rule. -/
structure ChallengeResult where
  title : String
  winner : String
  detail : String
  subtitle : String
deriving DecidableEq, Repr

/-- `compute_week_challenge` from the source: dispatch on the fixed
17-entry week table, absent outside it or when the rule yields nothing. -/
def compute_week_challenge (week : ℤ) (matchups : List Matchup)
    (standings : List StandingsRow) (week_rows : Option (List TeamWeekRow)) :
    Option ChallengeResult :=
  let res : Option RuleResult :=
    if week = 1 then highest_scoring_team matchups
    else if week = 2 then team_with_highest_scoring_player_starters_incl_dst week_rows
    else if week = 3 then team_with_highest_scoring_bench_player week_rows
    else if week = 4 then smallest_margin_of_victory matchups
    else if week = 5 then widest_margin_of_victory matchups
    else if week = 6 then highest_scoring_starting_k week_rows
    else if week = 7 then highest_scoring_starting_qb week_rows
    else if week = 8 then most_points_scored_in_losing_effort matchups
    else if week = 9 then first_place_after_week9 week standings
    else if week = 10 then team_with_dst_most_points week_rows
    else if week = 11 then highest_combined_starting_rb_points_incl_flex week_rows
    else if week = 12 then team_closest_to_projected_total week_rows
    else if week = 13 then most_points_against_cumulative standings
    else if week = 14 then lowest_scoring_team matchups
    else if week = 15 then highest_scoring_flex week_rows
    else if week = 16 then highest_scoring_te week_rows
    else if week = 17 then first_team_out_overall standings
    else none
  res.map (fun r =>
    { title := "Weekly Challenge Winner", winner := r.2.1, detail := r.2.2, subtitle := r.1 })

/-- `get_challenge_title_by_week` from the source: the title column of the
fixed week table. -/
def get_challenge_title_by_week (week : ℤ) : Option String :=
  if week = 1 then some "Highest scoring team"
  else if week = 2 then some "Highest scoring player (starter, D/ST incl.)"
  else if week = 3 then some "Highest scoring bench player"
  else if week = 4 then some "Smallest margin of victory"
  else if week = 5 then some "Widest margin of victory"
  else if week = 6 then some "Highest scoring starting K"
  else if week = 7 then some "Highest scoring starting QB"
  else if week = 8 then some "Most points in a losing effort"
  else if week = 9 then some "First place overall (after 9 weeks)"
  else if week = 10 then some "D/ST with most points"
  else if week = 11 then some "Highest combined starting RB points"
  else if week = 12 then some "Closest to projected total"
  else if week = 13 then some "Most points against (season)"
  else if week = 14 then some "Lowest weekly score"
  else if week = 15 then some "Highest scoring FLEX"
  else if week = 16 then some "Highest scoring TE"
  else if week = 17 then some "First Team Out"
  else none

-- ==============================
-- Power rankings
-- ==============================

structure PowerRankingRow where
  name : String
  record : String
  pf : ℚ
  pa : ℚ
  score : ℚ
  rank : ℕ
deriving DecidableEq, Repr

/-- The power score formula `2*wins - losses + (pf - pa)/100` on the raw
(un-rounded) fields. -/
def power_score (r : StandingsRow) : ℚ :=
  2 * r.wins - r.losses + (r.points_for - r.points_against) / 100

/-- One ranking row before rank assignment; the emitted score is the
formula rounded to three decimals. -/
def powerRowOf (r : StandingsRow) : PowerRankingRow :=
  { name := r.name
    record := recordStr r.wins r.losses r.ties
    pf := round2 r.points_for
    pa := round2 r.points_against
    score := round3 (power_score r)
    rank := 0 }

/-- The descending comparator `key=(score, pf), reverse=True`. -/
def powerLe (a b : PowerRankingRow) : Bool :=
  decide (b.score < a.score ∨ (b.score = a.score ∧ b.pf ≤ a.pf))

/-- `compute_power_rankings` from the source. -/
def compute_power_rankings (standings : List StandingsRow) : List PowerRankingRow :=
  if standings.isEmpty then []
  else
    let sorted := (standings.map powerRowOf).mergeSort powerLe
    (sorted.enum).map (fun p => { p.2 with rank := p.1 + 1 })

-- ==============================
-- Narrative composer
-- ==============================

/-- Python `f"{x:.1f}"`. -/
def fmt1 (q : ℚ) : String :=
  let n : ℤ := round (q * 10)
  let a := n.natAbs
  (if n < 0 then "-" else "") ++ toString (a / 10) ++ "." ++ toString (a % 10)

/-- Python `min(l, key)` on a nonempty list given as head and tail. -/
def minBy1 {α : Type} (key : α → ℚ) (x : α) (xs : List α) : α :=
  xs.foldl (fun b a => if key a < key b then a else b) x

/-- Python `max(l, key)` on a nonempty list given as head and tail. -/
def maxBy1 {α : Type} (key : α → ℚ) (x : α) (xs : List α) : α :=
  xs.foldl (fun b a => if key a > key b then a else b) x

/-- The three pre-authored underperformance phrasings, selected by the
rotation index; the argument carries (team, projected, actual, delta). -/
def u_msg (w : String × ℚ × ℚ × ℚ) (idx : ℕ) : String :=
  if idx = 0 then
    w.1 ++ " missed the memo: projected " ++ fmt1 w.2.1 ++ ", delivered " ++
      fmt1 w.2.2.1 ++ " (−" ++ fmt1 w.2.2.2 ++ ")."
  else if idx = 1 then
    w.1 ++ " got humbled—" ++ fmt1 w.2.1 ++ " projected, only " ++ fmt1 w.2.2.1 ++
      ". That’s a " ++ fmt1 w.2.2.2 ++ "-point faceplant."
  else
    "Vegas had " ++ w.1 ++ " at " ++ fmt1 w.2.1 ++ "; reality said " ++
      fmt1 w.2.2.1 ++ ". " ++ fmt1 w.2.2.2 ++ " under. Yikes."

/-- The three pre-authored lowest-score phrasings, selected by the
rotation index. -/
def l_msg (team : String) (score : ℚ) (idx : ℕ) : String :=
  if idx = 0 then
    "And bringing up the rear, " ++ team ++ " with just " ++ fmt1 score ++
      ". Someone check their Wi-Fi."
  else if idx = 1 then
    "Weekly floor goes to " ++ team ++ ": " ++ fmt1 score ++
      " points. Bench might sue for playing time."
  else
    team ++ " posted " ++ fmt1 score ++ ". The kicker’s carpool scored more."

/-- The underperformance candidates of the narrative: teams at least 20
points under their projected total, with the rounded delta stored. -/
def underperfOf (rows : List TeamWeekRow) : List (String × ℚ × ℚ × ℚ) :=
  rows.filterMap (fun r =>
    match r.proj with
    | some proj => if proj - r.pts ≥ 20 then some (r.team, proj, r.pts, round2 (proj - r.pts)) else none
    | none => none)

/-- The lowest-score callout of the narrative for a nonempty matchup
list: the lowest-scoring side of the matchup with the lowest minimum. -/
def narrative_low_callout (ms : List Matchup) (idx : ℕ) : String :=
  match ms with
  | [] => ""
  | m0 :: rest =>
    let lp := minBy1 (fun m => min m.home_pts m.away_pts) m0 rest
    l_msg (if lp.home_pts < lp.away_pts then lp.home else lp.away)
      (min lp.home_pts lp.away_pts) idx

/-- `build_narrative` from the source. -/
def build_narrative (matchups : List Matchup) (week : ℤ)
    (week_rows : Option (List TeamWeekRow)) : String :=
  match matchups with
  | [] => "No results yet for Week " ++ toString week ++ "."
  | m0 :: rest =>
    let closest := minBy1 (fun m => m.abs_margin) m0 rest
    let blowout := maxBy1 (fun m => m.abs_margin) m0 rest
    let idx := ((week - 1) % 3).toNat
    let line1 := "Week " ++ toString week ++ " is in the books!"
    let line2 := " The closest battle was between " ++ closest.away ++ " and " ++
      closest.home ++ ", decided by just " ++ pyShowFloat closest.abs_margin ++ " points."
    let line3 := " Meanwhile, " ++ blowout.home ++ " vs " ++ blowout.away ++
      " was a blowout with a margin of " ++ pyShowFloat blowout.abs_margin ++ "."
    let underLines : List String :=
      if ¬ pyFalsyRows week_rows then
        match maxFirstBy (fun u => u.2.2.2) (underperfOf (wrList week_rows)) with
        | some worst => [" " ++ u_msg worst idx]
        | none => []
      else []
    String.intercalate " "
      ([line1, line2, line3] ++ underLines ++
        [" " ++ narrative_low_callout (m0 :: rest) idx])

-- ==============================
-- Specification-side definitions
-- ==============================

/-- The points-resolution order as the specification words it: entry-level
applied totals, then pool-entry-level applied totals, then the actual stat
record of the requested week, then the summed applied-stat breakdown, and
`0.0` when none of the sources yields a number. -/
def points_resolution_spec (e ppe player : JVal) (wk : ℤ) : ℚ :=
  (firstNumField e totalKeys <|> firstNumField ppe totalKeys <|>
    statLookup player wk <|> sumApplied e).getD 0

/-- The display-name resolution as the specification words it: the first
non-empty candidate among trimmed-space-joined location+nickname, name and
abbreviation, else the synthesized name. -/
def team_display_name_spec (t : JVal) : String :=
  match [pyStrip (strField t "location" ++ " " ++ strField t "nickname"),
         strField t "name", strField t "abbrev"].find? (fun s => decide (s ≠ "")) with
  | some s => s
  | none =>
    match t.get "id" with
    | some v => if v.isNull then "Team" else "Team " ++ ((v.key?).map pyShowKey).getD "?"
    | none => "Team"

/-- All bench players across the week rows in iteration order, each tagged
with the owning team. -/
def benchCandidates (wr : Option (List TeamWeekRow)) : List (String × PlayerEntry) :=
  (wrList wr).flatMap (fun r => r.bench.map (fun p => (r.team, p)))

-- ==============================
-- Concrete fixtures
-- ==============================

def fixTeamA : JVal := .obj [("id", .num 1), ("location", .str "A"),
  ("record", .obj [("overall", .obj [("wins", .num 5), ("losses", .num 8),
    ("ties", .num 0), ("pointsAgainst", .num 50)])]),
  ("points", .num 100)]

def fixTeamB : JVal := .obj [("id", .num 2), ("location", .str "B"),
  ("record", .obj [("overall", .obj [("wins", .num 5), ("losses", .num 8),
    ("ties", .num 0), ("pointsAgainst", .num 60)])]),
  ("points", .num 120)]

def fixTeamC : JVal := .obj [("id", .num 3), ("location", .str "C"),
  ("record", .obj [("overall", .obj [("wins", .num 3), ("losses", .num 10),
    ("ties", .num 0), ("pointsAgainst", .num 70)])]),
  ("points", .num 200)]

def fixTeams : List JVal := [fixTeamA, fixTeamB]

/-- A scoreboard whose single week-1 entry has raw totals 1.006 and 0.003:
the emitted rounded fields are 1.01 and 0.0 while the emitted margin is
round(1.003, 2) = 1.0. -/
def fixSBround : JVal := .obj [("schedule", .arr [
  .obj [("matchupPeriodId", .num 1),
        ("home", .obj [("teamId", .num 1), ("totalPoints", .num (1006/1000))]),
        ("away", .obj [("teamId", .num 2), ("totalPoints", .num (3/1000))])]])]

/-- A well-behaved scoreboard: one week-1 entry, totals 110 and 90, an
explicit HOME winner flag. -/
def fixSB2 : JVal := .obj [("schedule", .arr [
  .obj [("matchupPeriodId", .num 1), ("winner", .str "HOME"),
        ("home", .obj [("teamId", .num 1), ("totalPoints", .num 110)]),
        ("away", .obj [("teamId", .num 2), ("totalPoints", .num 90)])]])]

/-- The matchup `summarize_matchups fixSB2 fixTeams 1` produces. -/
def fixMu : Matchup :=
  { home_id := some (.num 1), away_id := some (.num 2), home := "A", away := "B",
    home_pts := 110, away_pts := 90, winner := .home, abs_margin := 20 }

def fixPlayer (nm : String) (slot : ℚ) (pts : ℚ) : PlayerEntry :=
  { name := nm, posId := some (.num 2), slotId := some (.num slot), points := pts, proj := none }

def fixRowX : TeamWeekRow :=
  { team := "X", pts := 100, opp := "Y", opp_pts := 90, won := true, abs_margin := 10,
    starters := [fixPlayer "s1" 0 12], bench := [fixPlayer "b1" 20 30], proj := none }

def fixRowY : TeamWeekRow :=
  { team := "Y", pts := 90, opp := "X", opp_pts := 100, won := false, abs_margin := 10,
    starters := [fixPlayer "s2" 0 9], bench := [fixPlayer "b2" 20 5], proj := none }

def fixEntry (slot : ℚ) (pts : ℚ) : JVal := .obj [
  ("lineupSlotId", .num slot),
  ("appliedStatTotal", .num pts),
  ("playerPoolEntry", .obj [("player", .obj [("fullName", .str "P"),
    ("defaultPositionId", .num 2)])])]

/-- A boxscore with one week-2 entry; the home roster has one regular
starter, one bench (20), one injured-reserve (21) and one FLEX (23)
entry. -/
def fixBox : JVal := .obj [("schedule", .arr [
  .obj [("matchupPeriodId", .num 2),
        ("home", .obj [("teamId", .num 1), ("totalPoints", .num 101),
          ("rosterForCurrentScoringPeriod", .obj [("entries", .arr
            [fixEntry 0 10, fixEntry 20 4, fixEntry 21 3, fixEntry 23 7])])]),
        ("away", .obj [("teamId", .num 2), ("totalPoints", .num 99),
          ("rosterForCurrentScoringPeriod", .obj [("entries", .arr
            [fixEntry 2 8])])])]])]

def fixDummyRow : TeamWeekRow :=
  { team := "", pts := 0, opp := "", opp_pts := 0, won := false, abs_margin := 0,
    starters := [], bench := [], proj := none }

def fixBoxRow0 : TeamWeekRow :=
  ((build_week_stats_from_boxscore fixBox fixTeams 2).getD []).headD fixDummyRow

def fixWeekRows : List TeamWeekRow :=
  (build_week_stats_from_boxscore fixBox fixTeams 2).getD []

/-- The power-ranking example row of the specification: 10 wins, 3 losses,
1500 points for, 1200 against. -/
def fixPowerRow : StandingsRow :=
  { name := "T", wins := 10, losses := 3, ties := 0, points_for := 1500, points_against := 1200 }

/-- A standings row whose power-score formula value (0.00001) has more
than three decimal places. -/
def fixTinyRow : StandingsRow :=
  { name := "Z", wins := 0, losses := 0, ties := 0, points_for := 1/1000, points_against := 0 }

/-- The single ranking row produced from `fixPowerRow`. -/
def fixPowerRank1 : PowerRankingRow :=
  { powerRowOf fixPowerRow with rank := 1 }

set_option maxRecDepth 8000

-- ==============================
-- Helper lemmas: stripping
-- ==============================

theorem stripChars_eq_nil_iff (l : List Char) :
    stripChars l = [] ↔ ∀ c ∈ l, c.isWhitespace = true := by
  unfold stripChars
  rw [List.reverse_eq_nil_iff, List.dropWhile_eq_nil_iff]
  constructor
  · intro h c hc
    rcases List.mem_append.1 (by
      rw [List.takeWhile_append_dropWhile (p := Char.isWhitespace) (l := l)]
      exact hc) with h1 | h2
    · exact List.mem_takeWhile_imp h1
    · exact h c (List.mem_reverse.2 h2)
  · intro h c hc
    exact h c ((List.dropWhile_sublist _).subset (List.mem_reverse.1 hc))

theorem dropWhile_head_not {α : Type} (p : α → Bool) :
    ∀ (l : List α) (h : l.dropWhile p ≠ []), p ((l.dropWhile p).head h) = false
  | [], h => absurd rfl h
  | a :: l, h => by
    by_cases hp : p a
    · simp only [List.dropWhile_cons, hp, if_true] at h ⊢
      exact dropWhile_head_not p l h
    · simp only [List.dropWhile_cons, hp, if_false]
      simpa using hp

theorem stripChars_has_nonws (l : List Char) (h : stripChars l ≠ []) :
    ∃ c ∈ stripChars l, c.isWhitespace = false := by
  unfold stripChars at h ⊢
  have hne : (l.dropWhile Char.isWhitespace).reverse.dropWhile Char.isWhitespace ≠ [] := by
    intro h0
    exact h (by rw [h0]; rfl)
  refine ⟨_, List.mem_reverse.2 (List.head_mem hne), ?_⟩
  exact dropWhile_head_not Char.isWhitespace _ hne

theorem pyStrip_ne_empty_iff (s : String) :
    pyStrip s ≠ "" ↔ ¬ ∀ c ∈ s.data, c.isWhitespace = true := by
  unfold pyStrip
  rw [not_iff_not, ← stripChars_eq_nil_iff]
  constructor
  · intro h
    have : stripChars s.data = ("" : String).data := by rw [← h]
    simpa using this
  · intro h
    rw [show ("" : String) = ⟨[]⟩ from rfl]
    exact congrArg String.mk h

theorem pyStrip_append_ne (s t : String)
    (h : ∃ c ∈ s.data, c.isWhitespace = false) : pyStrip (s ++ t) ≠ "" := by
  rw [pyStrip_ne_empty_iff]
  intro hall
  obtain ⟨c, hc, hcw⟩ := h
  have : c.isWhitespace = true := hall c (by
    rw [String.data_append]
    exact List.mem_append.2 (Or.inl hc))
  rw [this] at hcw
  exact absurd hcw (by decide)

theorem pyStrip_append_ne_right (s t : String)
    (h : ∃ c ∈ t.data, c.isWhitespace = false) : pyStrip (s ++ t) ≠ "" := by
  rw [pyStrip_ne_empty_iff]
  intro hall
  obtain ⟨c, hc, hcw⟩ := h
  have : c.isWhitespace = true := hall c (by
    rw [String.data_append]
    exact List.mem_append.2 (Or.inr hc))
  rw [this] at hcw
  exact absurd hcw (by decide)

theorem pyStrip_nonempty_has_nonws (s : String) (h : pyStrip s ≠ "") :
    ∃ c ∈ (pyStrip s).data, c.isWhitespace = false := by
  unfold pyStrip at h ⊢
  have hne : stripChars s.data ≠ [] := by
    intro h0
    exact h (by
      rw [show ("" : String) = ⟨[]⟩ from rfl]
      exact congrArg String.mk h0)
  exact stripChars_has_nonws s.data hne

theorem strField_nonws (t : JVal) (k : String) :
    strField t k ≠ "" → ∃ c ∈ (strField t k).data, c.isWhitespace = false := by
  unfold strField
  split
  · intro h
    exact pyStrip_nonempty_has_nonws _ h
  · intro h
    exact absurd rfl h

/-- The first fallback candidate is non-empty as soon as the trimmed
location or nickname is. -/
theorem locnick_ne (t : JVal)
    (h1 : strField t "location" ≠ "" ∨ strField t "nickname" ≠ "") :
    pyStrip (strField t "location" ++ " " ++ strField t "nickname") ≠ "" := by
  rcases h1 with h | h
  · obtain ⟨c, hc, hcw⟩ := strField_nonws t "location" h
    exact pyStrip_append_ne (strField t "location" ++ " ") (strField t "nickname")
      ⟨c, by
        rw [String.data_append]
        exact List.mem_append.2 (Or.inl hc), hcw⟩
  · obtain ⟨c, hc, hcw⟩ := strField_nonws t "nickname" h
    exact pyStrip_append_ne_right (strField t "location" ++ " ") (strField t "nickname")
      ⟨c, hc, hcw⟩

theorem team_prefixed_ne_empty (x : String) : ("Team " ++ x) ≠ "" := by
  intro h
  have h2 : ("Team ".data ++ x.data) = [] := by
    simpa [String.data_append] using congrArg String.data h
  have h3 : "Team ".data = [] := (List.append_eq_nil.1 h2).1
  exact absurd h3 (by decide)

/-- A display name is never the empty string, whatever the record. -/
theorem team_display_name_ne_empty (t : JVal) : team_display_name t ≠ "" := by
  unfold team_display_name
  by_cases h1 : strField t "location" ≠ "" ∨ strField t "nickname" ≠ ""
  · rw [if_pos h1]
    exact locnick_ne t h1
  · rw [if_neg h1]
    by_cases h2 : strField t "name" ≠ ""
    · rw [if_pos h2]
      exact h2
    · rw [if_neg h2]
      by_cases h3 : strField t "abbrev" ≠ ""
      · rw [if_pos h3]
        exact h3
      · rw [if_neg h3]
        split
        · split
          · decide
          · exact team_prefixed_ne_empty _
        · decide

theorem team_name_map_length (teams : List JVal) :
    (team_name_map teams).length = teams.countP (fun t => (teamIdKey t).isSome) := by
  induction teams with
  | nil => rfl
  | cons t ts ih =>
    unfold team_name_map at ih ⊢
    rw [List.filterMap_cons, List.countP_cons]
    rcases h : teamIdKey t with _ | k
    · simp [h, ih]
    · simp [h, ih]

theorem team_name_map_lookup (teams : List JVal) (t : JVal) (k : PKey)
    (ht : t ∈ teams) (hk : teamIdKey t = some k) :
    ∃ name, dictFind (team_name_map teams) k = some name ∧ name ≠ "" := by
  have hmem : (k, team_display_name t) ∈ team_name_map teams := by
    unfold team_name_map
    exact List.mem_filterMap.2 ⟨t, ht, by rw [hk]; rfl⟩
  unfold dictFind
  rcases hf : (team_name_map teams).reverse.find? (fun p => decide (p.1 = k)) with _ | p
  · rw [List.find?_eq_none] at hf
    exact absurd (by simp : (decide (((k, team_display_name t) : PKey × String).1 = k)) = true)
      (by simpa using hf (k, team_display_name t) (List.mem_reverse.2 hmem))
  · refine ⟨p.2, by rw [hf]; rfl, ?_⟩
    have hpmem : p ∈ team_name_map teams :=
      List.mem_reverse.1 (List.mem_of_find?_eq_some hf)
    obtain ⟨t2, _, ht2⟩ := List.mem_filterMap.1 hpmem
    rcases h2 : teamIdKey t2 with _ | k2
    · rw [h2] at ht2
      exact absurd ht2 (by simp)
    · rw [h2] at ht2
      have hp : p = (k2, team_display_name t2) := by simpa using ht2.symm
      rw [hp]
      exact team_display_name_ne_empty t2

theorem team_display_name_eq_spec (t : JVal) :
    team_display_name t = team_display_name_spec t := by
  unfold team_display_name team_display_name_spec
  by_cases h1 : strField t "location" ≠ "" ∨ strField t "nickname" ≠ ""
  · rw [if_pos h1, List.find?_cons_of_pos _ (by simpa using locnick_ne t h1)]
  · rw [if_neg h1]
    push_neg at h1
    obtain ⟨hl, hn⟩ := h1
    have hc1 : pyStrip (strField t "location" ++ " " ++ strField t "nickname") = "" := by
      rw [hl, hn]
      decide
    rw [List.find?_cons_of_neg _ (by simp [hc1])]
    by_cases h2 : strField t "name" ≠ ""
    · rw [if_pos h2, List.find?_cons_of_pos _ (by simpa using h2)]
    · rw [if_neg h2]
      rw [List.find?_cons_of_neg _ (by simpa using h2)]
      by_cases h3 : strField t "abbrev" ≠ ""
      · rw [if_pos h3, List.find?_cons_of_pos _ (by simpa using h3)]
      · rw [if_neg h3, List.find?_cons_of_neg _ (by simpa using h3)]
        rfl

/-- C10: every raw team record with a non-null id yields exactly one
directory entry carrying a non-empty display name; the name follows the
fallback order location+nickname (trimmed, space-joined), then name, then
abbreviation, then the synthesized team-id name; records without an id
are skipped (the directory holds exactly one pair per record with a
non-null id); malformed or missing name fields never raise (all the
functions here are total).  The two concrete conjuncts are the examples
of the specification. -/
theorem team_directory_resolution :
    (∀ t : JVal, team_display_name t ≠ "") ∧
    (∀ teams : List JVal,
      (team_name_map teams).length = teams.countP (fun t => (teamIdKey t).isSome)) ∧
    (∀ (teams : List JVal) (t : JVal) (k : PKey), t ∈ teams → teamIdKey t = some k →
      ∃ name, dictFind (team_name_map teams) k = some name ∧ name ≠ "") ∧
    team_display_name (.obj [("location", .str "Geno"), ("nickname", .str "Squad")]) = "Geno Squad" ∧
    team_display_name (.obj [("id", .num 7)]) = "Team 7" ∧
    (∀ t : JVal, team_display_name t = team_display_name_spec t) :=
  ⟨team_display_name_ne_empty, team_name_map_length, team_name_map_lookup,
    by decide, by decide, team_display_name_eq_spec⟩

/-- Witness for C10 at a concrete record with non-null id 1. -/
theorem team_directory_resolution_witness :
    ∃ name, dictFind (team_name_map [fixTeamA]) (.num 1) = some name ∧ name ≠ "" :=
  team_directory_resolution.2.2.1 [fixTeamA] fixTeamA (.num 1)
    (List.mem_singleton.2 rfl) (by decide)

-- ==============================
-- Helper lemmas: winner and rounding
-- ==============================

theorem round2_int_div (n : ℤ) : round2 ((n : ℚ) / 100) = (n : ℚ) / 100 := by
  unfold round2
  have h : ((n : ℚ) / 100) * 100 = (n : ℚ) := div_mul_cancel₀ _ (by norm_num)
  rw [h, round_intCast]

theorem resolveWinner_eq_tie_iff (flag : String) (h a : ℚ) :
    resolveWinner flag h a = .tie ↔ (h = a ∧ flag ≠ "UNDECIDED") := by
  unfold resolveWinner
  split_ifs with h1 h2 h3 h4 h5
  · exact iff_of_false (by decide) (fun he => h1.2 he.1)
  · exact iff_of_false (by decide) (fun he => h2.2 he.1)
  · exact iff_of_false (by decide) (fun he => absurd he.1 (ne_of_gt h3))
  · exact iff_of_false (by decide) (fun he => absurd he.1.symm (ne_of_gt h4))
  · exact iff_of_true rfl h5
  · exact iff_of_false (by decide) h5

theorem resolveWinner_undecided (flag : String) (h a : ℚ)
    (he : h = a) (hf : flag = "UNDECIDED") : resolveWinner flag h a = .undecided := by
  subst hf
  unfold resolveWinner
  split_ifs with h1 h2 h3 h4 h5
  · exact absurd he h1.2
  · exact absurd he h2.2
  · exact absurd (he ▸ h3) (lt_irrefl a)
  · exact absurd (he ▸ h4) (lt_irrefl a)
  · exact absurd rfl h5.2
  · rfl

theorem resolveWinner_home_flag (flag : String) (h a : ℚ)
    (hf : flag = "HOME") (hne : h ≠ a) : resolveWinner flag h a = .home := by
  unfold resolveWinner
  rw [if_pos ⟨hf, hne⟩]

theorem resolveWinner_away_flag (flag : String) (h a : ℚ)
    (hf : flag = "AWAY") (hne : h ≠ a) : resolveWinner flag h a = .away := by
  subst hf
  unfold resolveWinner
  rw [if_neg (fun hc => absurd hc.1 (by decide)), if_pos ⟨rfl, hne⟩]

/-- C1, amended: for every matchup produced by `summarize_matchups`, the
emitted `abs_margin` is `round(|rawHome − rawAway|, 2)` on the raw parsed
totals — which agrees with `|home_pts − away_pts|` on the emitted rounded
fields whenever both raw totals are integer multiples of 1/100; the
winner is `tie` exactly when the raw totals are equal and the normalized
winner flag differs from "UNDECIDED"; equal totals with flag "UNDECIDED"
give `undecided`; and an explicit "HOME"/"AWAY" flag with unequal totals
fixes the winner regardless of which side scored more. -/
theorem summarize_matchups_margin_winner (sb : JVal) (teams : List JVal) (wk : ℤ)
    (mu : Matchup) (h : mu ∈ summarize_matchups sb teams wk) :
    ∃ m ∈ scheduleOf sb,
      summarize_entry (team_name_map teams) wk m = some mu ∧
      mu.abs_margin = round2 |rawPts m "home" - rawPts m "away"| ∧
      (mu.winner = .tie ↔ rawPts m "home" = rawPts m "away" ∧ winnerFlag m ≠ "UNDECIDED") ∧
      (rawPts m "home" = rawPts m "away" → winnerFlag m = "UNDECIDED" → mu.winner = .undecided) ∧
      (winnerFlag m = "HOME" → rawPts m "home" ≠ rawPts m "away" → mu.winner = .home) ∧
      (winnerFlag m = "AWAY" → rawPts m "home" ≠ rawPts m "away" → mu.winner = .away) ∧
      (∀ hn an : ℤ, rawPts m "home" = (hn : ℚ) / 100 → rawPts m "away" = (an : ℚ) / 100 →
        mu.abs_margin = |mu.home_pts - mu.away_pts|) := by
  unfold summarize_matchups at h
  obtain ⟨m, hm, he⟩ := List.mem_filterMap.1 h
  refine ⟨m, hm, he, ?_⟩
  unfold summarize_entry at he
  split at he
  · exact absurd he (by simp)
  · split at he
    · exact absurd he (by simp)
    · have hrec := Option.some.inj he
      subst hrec
      refine ⟨rfl, resolveWinner_eq_tie_iff _ _ _,
        fun he hf => resolveWinner_undecided _ _ _ he hf,
        fun hf hne => resolveWinner_home_flag _ _ _ hf hne,
        fun hf hne => resolveWinner_away_flag _ _ _ hf hne, ?_⟩
      intro hn an hh ha
      show round2 |rawPts m "home" - rawPts m "away"| =
        |round2 (rawPts m "home") - round2 (rawPts m "away")|
      rw [hh, ha, round2_int_div, round2_int_div, div_sub_div_same]
      have hc : (hn : ℚ) - (an : ℚ) = ((hn - an : ℤ) : ℚ) := by push_cast; ring
      rw [hc, abs_div, show |(100 : ℚ)| = 100 from by norm_num, ← Int.cast_abs,
        round2_int_div]

/-- Witness for C1 at a concrete scoreboard (totals 110 and 90, flag
HOME). -/
theorem summarize_matchups_margin_winner_witness :
    ∃ m ∈ scheduleOf fixSB2,
      summarize_entry (team_name_map fixTeams) 1 m = some fixMu ∧
      fixMu.abs_margin = round2 |rawPts m "home" - rawPts m "away"| ∧
      (fixMu.winner = .tie ↔ rawPts m "home" = rawPts m "away" ∧ winnerFlag m ≠ "UNDECIDED") ∧
      (rawPts m "home" = rawPts m "away" → winnerFlag m = "UNDECIDED" → fixMu.winner = .undecided) ∧
      (winnerFlag m = "HOME" → rawPts m "home" ≠ rawPts m "away" → fixMu.winner = .home) ∧
      (winnerFlag m = "AWAY" → rawPts m "home" ≠ rawPts m "away" → fixMu.winner = .away) ∧
      (∀ hn an : ℤ, rawPts m "home" = (hn : ℚ) / 100 → rawPts m "away" = (an : ℚ) / 100 →
        fixMu.abs_margin = |fixMu.home_pts - fixMu.away_pts|) :=
  summarize_matchups_margin_winner fixSB2 fixTeams 1 fixMu (by with_unfolding_all decide)

/-- C1 counterexample: on raw totals 1.006 and 0.003 the emitted margin is
round(1.003, 2) = 1.0 while the emitted rounded points give
|1.01 − 0.0| = 1.01, so `absoluteMargin = |homePoints − awayPoints|` fails
as stated. -/
theorem summarize_matchups_margin_cex :
    ¬ (∀ mu ∈ summarize_matchups fixSBround [] 1,
        mu.abs_margin = |mu.home_pts - mu.away_pts|) := by
  with_unfolding_all decide

-- ==============================
-- C2: points resolution order
-- ==============================

theorem JVal.get_of_not_obj (j : JVal) (k : String) (h : j.isObj = false) :
    j.get k = none := by
  cases j <;> first | rfl | exact absurd h (by simp [JVal.isObj])

theorem firstNumField_of_not_obj (j : JVal) (keys : List String) (h : j.isObj = false) :
    firstNumField j keys = none := by
  unfold firstNumField
  induction keys with
  | nil => rfl
  | cons k ks ih =>
    rw [List.findSome?_cons, JVal.get_of_not_obj j k h]
    exact ih

/-- C2: `_extract_points` resolves points by trying, in this order,
entry-level applied totals, pool-entry-level applied totals, the actual
per-scoring-period stat record of the requested week, and the summed
applied-stat breakdown, defaulting to 0.0 when no source yields a
number. -/
theorem extract_points_resolution_order (e ppe player : JVal) (wk : ℤ) :
    extract_points e ppe player wk = points_resolution_spec e ppe player wk := by
  unfold extract_points points_resolution_spec
  rcases h1 : firstNumField e totalKeys with _ | v
  · cases hobj : ppe.isObj with
    | false =>
      have h2 := firstNumField_of_not_obj ppe totalKeys hobj
      rcases h3 : statLookup player wk with _ | x <;>
        rcases h4 : sumApplied e with _ | y <;>
          simp [h1, h2, h3, h4, hobj]
    | true =>
      rcases h2 : firstNumField ppe totalKeys with _ | w <;>
        rcases h3 : statLookup player wk with _ | x <;>
          rcases h4 : sumApplied e with _ | y <;>
            simp [h1, h2, h3, h4, hobj]
  · simp [h1]

-- ==============================
-- C3: challenge dispatch bounds
-- ==============================

/-- C3: `compute_week_challenge` is absent (and total, never raising) for
any week outside 1..17 and for week 9 with empty standings; the title
table answers week 1 with "Highest scoring team" and has no entry for
week 18. -/
theorem compute_week_challenge_bounds :
    (∀ (week : ℤ) (ms : List Matchup) (ss : List StandingsRow)
        (wr : Option (List TeamWeekRow)),
      week < 1 ∨ 17 < week → compute_week_challenge week ms ss wr = none) ∧
    (∀ (ms : List Matchup) (wr : Option (List TeamWeekRow)),
      compute_week_challenge 9 ms [] wr = none) ∧
    get_challenge_title_by_week 1 = some "Highest scoring team" ∧
    get_challenge_title_by_week 18 = none := by
  refine ⟨?_, ?_, by norm_num [get_challenge_title_by_week],
    by norm_num [get_challenge_title_by_week]⟩
  · intro week ms ss wr h
    unfold compute_week_challenge
    have e1 : week ≠ 1 := by omega
    have e2 : week ≠ 2 := by omega
    have e3 : week ≠ 3 := by omega
    have e4 : week ≠ 4 := by omega
    have e5 : week ≠ 5 := by omega
    have e6 : week ≠ 6 := by omega
    have e7 : week ≠ 7 := by omega
    have e8 : week ≠ 8 := by omega
    have e9 : week ≠ 9 := by omega
    have e10 : week ≠ 10 := by omega
    have e11 : week ≠ 11 := by omega
    have e12 : week ≠ 12 := by omega
    have e13 : week ≠ 13 := by omega
    have e14 : week ≠ 14 := by omega
    have e15 : week ≠ 15 := by omega
    have e16 : week ≠ 16 := by omega
    have e17 : week ≠ 17 := by omega
    simp [e1, e2, e3, e4, e5, e6, e7, e8, e9, e10, e11, e12, e13, e14, e15, e16, e17]
  · intro ms wr
    norm_num [compute_week_challenge, first_place_after_week9]

/-- Witness for C3 at the out-of-range week 18. -/
theorem compute_week_challenge_bounds_witness :
    ((18 : ℤ) < 1 ∨ 17 < (18 : ℤ)) ∧ compute_week_challenge 18 [] [] none = none :=
  ⟨by norm_num, compute_week_challenge_bounds.1 18 [] [] none (by norm_num)⟩

-- ==============================
-- C4: standings extraction
-- ==============================

theorem standingsLe_trans (a b c : StandingsRow) :
    standingsLe a b = true → standingsLe b c = true → standingsLe a c = true := by
  simp only [standingsLe, decide_eq_true_eq]
  rintro (h1 | ⟨e1, h1⟩) (h2 | ⟨e2, h2⟩)
  · exact Or.inl (lt_trans h2 h1)
  · exact Or.inl (e2 ▸ h1)
  · exact Or.inl (e1 ▸ h2)
  · exact Or.inr ⟨e2.trans e1, le_trans h2 h1⟩

theorem standingsLe_total (a b : StandingsRow) :
    (standingsLe a b || standingsLe b a) = true := by
  simp only [standingsLe, Bool.or_eq_true, decide_eq_true_eq]
  rcases lt_trichotomy a.wins b.wins with h | h | h
  · exact Or.inr (Or.inl h)
  · rcases le_total a.points_for b.points_for with hp | hp
    · exact Or.inr (Or.inr ⟨h, hp⟩)
    · exact Or.inl (Or.inr ⟨h.symm, hp⟩)
  · exact Or.inl (Or.inl h)

/-- C4: `extract_standings` keeps exactly one row per input team (the
output is a permutation of the per-team rows) and orders rows
descendingly by the pair (wins, points-for); ties and points-against play
no role in the comparator.  On the three example teams the order is
[B, A, C]. -/
theorem extract_standings_one_row_sorted :
    (∀ teams : List JVal, (extract_standings teams).Perm (teams.map standingsRowOf)) ∧
    (∀ teams : List JVal, (extract_standings teams).Pairwise
      (fun a b => b.wins < a.wins ∨ (b.wins = a.wins ∧ b.points_for ≤ a.points_for))) ∧
    (extract_standings [fixTeamA, fixTeamB, fixTeamC]).map (fun r => r.name) = ["B", "A", "C"] := by
  refine ⟨?_, ?_, by with_unfolding_all decide⟩
  · intro teams
    exact List.mergeSort_perm _ _
  · intro teams
    have hp := List.sorted_mergeSort standingsLe_trans standingsLe_total
      (teams.map standingsRowOf)
    exact hp.imp (fun h => by simpa [standingsLe] using h)

-- ==============================
-- C5: week-3 rule scans for the minimum
-- ==============================

theorem optMinFold_some {α : Type} (key : α → ℚ) (l : List α) :
    ∀ x : α,
      l.foldl (optMinStep key) (some x) =
      some (l.foldl (fun b c => if key c < key b then c else b) x) := by
  induction l with
  | nil => exact fun x => rfl
  | cons a l ih =>
    intro x
    simp only [List.foldl_cons]
    show l.foldl (optMinStep key) (if key a < key x then some a else some x) =
      some (l.foldl _ (if key a < key x then a else x))
    by_cases h : key a < key x
    · rw [if_pos h, if_pos h]
      exact ih a
    · rw [if_neg h, if_neg h]
      exact ih x

theorem optMinFold_eq_minFirstBy {α : Type} (key : α → ℚ) (l : List α) :
    l.foldl (optMinStep key) none = minFirstBy key l := by
  cases l with
  | nil => rfl
  | cons x xs =>
    simp only [List.foldl_cons]
    exact optMinFold_some key xs x

theorem scanPlayersMin_eq_minFirstBy (rows : List TeamWeekRow)
    (pick : TeamWeekRow → List PlayerEntry) :
    scanPlayersMin rows pick =
      minFirstBy (fun c => c.2.points)
        (rows.flatMap (fun r => (pick r).map (fun p => (r.team, p)))) := by
  rw [← optMinFold_eq_minFirstBy]
  unfold scanPlayersMin
  generalize (none : Option (String × PlayerEntry)) = acc
  induction rows generalizing acc with
  | nil => rfl
  | cons r rest ih =>
    simp only [List.foldl_cons, List.flatMap_cons, List.foldl_append]
    rw [List.foldl_map]
    exact ih _

/-- C5: the week-3 rule ("Highest scoring bench player") selects the
bench player with the minimum points across all teams, first-encountered
on a tie, and reports the owning team; the concrete instance shows the
owner of the 5-point bench player beating the owner of the 30-point
one. -/
theorem week3_challenge_picks_minimum :
    (∀ (ms : List Matchup) (ss : List StandingsRow) (wr : Option (List TeamWeekRow)),
      compute_week_challenge 3 ms ss wr =
        (minFirstBy (fun c => c.2.points) (benchCandidates wr)).map
          (fun c => { title := "Weekly Challenge Winner", winner := c.1,
                      detail := c.2.name ++ " — " ++ pyShowFloat c.2.points ++ " pts",
                      subtitle := "Highest scoring bench player" })) ∧
    ((compute_week_challenge 3 [] [] (some [fixRowX, fixRowY])).map (fun c => c.winner) =
      some "Y") ∧
    fixRowX.bench.map (fun p => p.points) = [30] ∧
    fixRowY.bench.map (fun p => p.points) = [5] := by
  refine ⟨?_, by with_unfolding_all decide, by with_unfolding_all decide,
    by with_unfolding_all decide⟩
  intro ms ss wr
  have hd : compute_week_challenge 3 ms ss wr =
      (team_with_highest_scoring_bench_player wr).map (fun r =>
        { title := "Weekly Challenge Winner", winner := r.2.1,
          detail := r.2.2, subtitle := r.1 }) := by
    norm_num [compute_week_challenge]
  rw [hd]
  unfold team_with_highest_scoring_bench_player
  by_cases hf : pyFalsyRows wr
  · rw [if_pos hf]
    have hb : benchCandidates wr = [] := by
      unfold benchCandidates wrList
      cases wr with
      | none => rfl
      | some l =>
        cases l with
        | nil => rfl
        | cons a as => simp [pyFalsyRows] at hf
    rw [hb]
    rfl
  · rw [if_neg hf, scanPlayersMin_eq_minFirstBy]
    unfold benchCandidates
    rw [Option.map_map]
    rfl

-- ==============================
-- C6: starters/bench partition
-- ==============================

theorem isExcludedSlot_iff (s : Option PKey) :
    isExcludedSlot s = true ↔
      (s = some (.num LINEUP_SLOT_BENCH) ∨ s = some (.num LINEUP_SLOT_IR)) := by
  simp [isExcludedSlot]

/-- C6: in every row built by `build_week_stats_from_boxscore`, the
starters and bench lists are the two complementary filters of the parsed
entry list by the bench/IR slot test, so each parsed entry lands in
exactly one of them: in `bench` iff its lineup slot id is the bench id
(20) or the injured-reserve id (21), and in `starters` (FLEX and every
other slot included) otherwise. -/
theorem roster_partition_starters_bench (boxscore : JVal) (teams : List JVal)
    (week : ℤ) (row : TeamWeekRow)
    (h : row ∈ (build_week_stats_from_boxscore boxscore teams week).getD []) :
    ∃ entries : List PlayerEntry,
      row.starters = entries.filter (fun p => !(isExcludedSlot p.slotId)) ∧
      row.bench = entries.filter (fun p => isExcludedSlot p.slotId) ∧
      (∀ p ∈ entries,
        (p ∈ row.bench ↔
          (p.slotId = some (.num LINEUP_SLOT_BENCH) ∨ p.slotId = some (.num LINEUP_SLOT_IR))) ∧
        (p ∈ row.starters ↔
          ¬(p.slotId = some (.num LINEUP_SLOT_BENCH) ∨ p.slotId = some (.num LINEUP_SLOT_IR)))) := by
  unfold build_week_stats_from_boxscore at h
  split at h
  · exact absurd h (by simp)
  · rw [Option.getD_some] at h
    obtain ⟨m, hm, hrow⟩ := List.mem_flatMap.1 h
    unfold boxscore_rows_entry at hrow
    split at hrow
    · exact absurd hrow (List.not_mem_nil row)
    · rcases List.mem_cons.1 hrow with hr | hr
      · subst hr
        refine ⟨_, rfl, rfl, fun p hp => ?_⟩
        constructor
        · rw [List.mem_filter, and_iff_right hp, isExcludedSlot_iff]
        · rw [List.mem_filter, and_iff_right hp, ← isExcludedSlot_iff]
          simp
      · rcases List.mem_cons.1 hr with hr2 | hr2
        · subst hr2
          refine ⟨_, rfl, rfl, fun p hp => ?_⟩
          constructor
          · rw [List.mem_filter, and_iff_right hp, isExcludedSlot_iff]
          · rw [List.mem_filter, and_iff_right hp, ← isExcludedSlot_iff]
            simp
        · exact absurd hr2 (List.not_mem_nil row)

/-- Witness for C6 at the first row of the concrete boxscore. -/
theorem roster_partition_starters_bench_witness :
    ∃ entries : List PlayerEntry,
      fixBoxRow0.starters = entries.filter (fun p => !(isExcludedSlot p.slotId)) ∧
      fixBoxRow0.bench = entries.filter (fun p => isExcludedSlot p.slotId) ∧
      (∀ p ∈ entries,
        (p ∈ fixBoxRow0.bench ↔
          (p.slotId = some (.num LINEUP_SLOT_BENCH) ∨ p.slotId = some (.num LINEUP_SLOT_IR))) ∧
        (p ∈ fixBoxRow0.starters ↔
          ¬(p.slotId = some (.num LINEUP_SLOT_BENCH) ∨ p.slotId = some (.num LINEUP_SLOT_IR)))) :=
  roster_partition_starters_bench fixBox fixTeams 2 fixBoxRow0 (by with_unfolding_all decide)

-- ==============================
-- C7: aggregator shape
-- ==============================

theorem boxscore_rows_entry_length (tm : List (PKey × String)) (wk : ℤ) (l : List JVal) :
    (l.flatMap (boxscore_rows_entry tm wk)).length =
      2 * l.countP (fun m => matchesWeek m wk) := by
  induction l with
  | nil => rfl
  | cons m ms ih =>
    rw [List.flatMap_cons, List.length_append, ih, List.countP_cons]
    by_cases h : matchesWeek m wk = true
    · have h2 : (boxscore_rows_entry tm wk m).length = 2 := by
        unfold boxscore_rows_entry
        rw [if_neg (by simpa using h)]
        simp
      rw [h2, if_pos h]
      omega
    · have h2 : boxscore_rows_entry tm wk m = [] := by
        unfold boxscore_rows_entry
        rw [if_pos (by simpa using h)]
      rw [h2, if_neg h]
      simp only [List.length_nil]
      omega

theorem sum_proj_isSome_iff (l : List PlayerEntry) :
    (sum_proj l).isSome = true ↔ ∃ p ∈ l, (p.proj).isSome = true := by
  unfold sum_proj
  by_cases h : (l.filterMap (fun p => p.proj)).isEmpty
  · rw [if_pos h]
    rw [List.isEmpty_iff, List.filterMap_eq_nil_iff] at h
    apply iff_of_false (by simp)
    rintro ⟨p, hp, hs⟩
    rw [h p hp] at hs
    exact absurd hs (by simp)
  · rw [if_neg h]
    apply iff_of_true (by simp)
    rw [List.isEmpty_iff] at h
    obtain ⟨q, hq⟩ := List.exists_mem_of_ne_nil _ h
    obtain ⟨p, hp, hpq⟩ := List.mem_filterMap.1 hq
    exact ⟨p, hp, by rw [hpq]; rfl⟩

/-- C7: `build_week_stats_from_boxscore` is absent exactly when the
boxscore payload is not an object (distinct from the empty row list);
it emits exactly two rows per schedule entry of the requested week; and
a row's projected-starter total is present iff at least one of its
starters carries a projection. -/
theorem build_week_stats_shape :
    (∀ (boxscore : JVal) (teams : List JVal) (week : ℤ),
      build_week_stats_from_boxscore boxscore teams week = none ↔ boxscore.isObj = false) ∧
    (∀ (boxscore : JVal) (teams : List JVal) (week : ℤ) (rows : List TeamWeekRow),
      build_week_stats_from_boxscore boxscore teams week = some rows →
      rows.length = 2 * (scheduleOf boxscore).countP (fun m => matchesWeek m week)) ∧
    (∀ (boxscore : JVal) (teams : List JVal) (week : ℤ) (row : TeamWeekRow),
      row ∈ (build_week_stats_from_boxscore boxscore teams week).getD [] →
      ((row.proj).isSome = true ↔ ∃ p ∈ row.starters, (p.proj).isSome = true)) := by
  refine ⟨?_, ?_, ?_⟩
  · intro boxscore teams week
    unfold build_week_stats_from_boxscore
    by_cases hobj : boxscore.isObj
    · rw [if_neg (by simpa using hobj)]
      simp [hobj]
    · rw [if_pos (by simpa using hobj)]
      simpa using hobj
  · intro boxscore teams week rows h
    unfold build_week_stats_from_boxscore at h
    split at h
    · exact absurd h (by simp)
    · rw [Option.some.injEq] at h
      rw [← h]
      exact boxscore_rows_entry_length _ _ _
  · intro boxscore teams week row h
    have hps : row.proj = sum_proj row.starters := by
      unfold build_week_stats_from_boxscore at h
      split at h
      · exact absurd h (by simp)
      · rw [Option.getD_some] at h
        obtain ⟨m, hm, hrow⟩ := List.mem_flatMap.1 h
        unfold boxscore_rows_entry at hrow
        split at hrow
        · exact absurd hrow (List.not_mem_nil row)
        · rcases List.mem_cons.1 hrow with hr | hr
          · subst hr
            rfl
          · rcases List.mem_cons.1 hr with hr2 | hr2
            · subst hr2
              rfl
            · exact absurd hr2 (List.not_mem_nil row)
    rw [hps]
    exact sum_proj_isSome_iff row.starters

/-- Witness for C7: the concrete boxscore yields exactly two rows for its
single week-2 schedule entry. -/
theorem build_week_stats_shape_witness :
    fixWeekRows.length = 2 * (scheduleOf fixBox).countP (fun m => matchesWeek m 2) :=
  build_week_stats_shape.2.1 fixBox fixTeams 2 fixWeekRows (by with_unfolding_all decide)

-- ==============================
-- C8: power rankings
-- ==============================

theorem powerLe_trans (a b c : PowerRankingRow) :
    powerLe a b = true → powerLe b c = true → powerLe a c = true := by
  simp only [powerLe, decide_eq_true_eq]
  rintro (h1 | ⟨e1, h1⟩) (h2 | ⟨e2, h2⟩)
  · exact Or.inl (lt_trans h2 h1)
  · exact Or.inl (e2 ▸ h1)
  · exact Or.inl (e1 ▸ h2)
  · exact Or.inr ⟨e2.trans e1, le_trans h2 h1⟩

theorem powerLe_total (a b : PowerRankingRow) :
    (powerLe a b || powerLe b a) = true := by
  simp only [powerLe, Bool.or_eq_true, decide_eq_true_eq]
  rcases lt_trichotomy a.score b.score with h | h | h
  · exact Or.inr (Or.inl h)
  · rcases le_total a.pf b.pf with hp | hp
    · exact Or.inr (Or.inr ⟨h, hp⟩)
    · exact Or.inl (Or.inr ⟨h.symm, hp⟩)
  · exact Or.inl (Or.inl h)

/-- C8, amended: `compute_power_rankings` assigns each row the score
`round(2*wins − losses + (pointsFor − pointsAgainst)/100, 3)` (the
three-decimal rounding of the formula, which equals the formula whenever
it has at most three decimal places — in particular 20.0 on the
wins=10/losses=3/pf=1500/pa=1200 example), sorts by (score, pointsFor)
descending, assigns rank as the 1-based position after sorting, and
returns the empty list on empty standings. -/
theorem compute_power_rankings_shape :
    compute_power_rankings [] = [] ∧
    (∀ ss : List StandingsRow,
      ((compute_power_rankings ss).map (fun r => (r.name, r.score))).Perm
        (ss.map (fun r => (r.name, round3 (power_score r))))) ∧
    (∀ ss : List StandingsRow, (compute_power_rankings ss).Pairwise
      (fun a b => b.score < a.score ∨ (b.score = a.score ∧ b.pf ≤ a.pf))) ∧
    (∀ (ss : List StandingsRow) (i : ℕ) (r : PowerRankingRow),
      (compute_power_rankings ss).get? i = some r → r.rank = i + 1) ∧
    power_score fixPowerRow = 20 ∧
    (compute_power_rankings [fixPowerRow]).map (fun r => (r.score, r.rank)) = [(20, 1)] := by
  refine ⟨rfl, ?_, ?_, ?_, by norm_num [power_score, fixPowerRow], ?_⟩
  · intro ss
    by_cases hss : ss.isEmpty
    · rw [List.isEmpty_iff] at hss
      subst hss
      rfl
    · unfold compute_power_rankings
      rw [if_neg hss, List.map_map]
    
      have h2 : ((((ss.map powerRowOf).mergeSort powerLe).enum).map
          ((fun r => (r.name, r.score)) ∘ (fun p => { p.2 with rank := p.1 + 1 }))) =
          ((ss.map powerRowOf).mergeSort powerLe).map (fun r => (r.name, r.score)) := by
        rw [show ((fun r : PowerRankingRow => (r.name, r.score)) ∘
            (fun p : ℕ × PowerRankingRow => { p.2 with rank := p.1 + 1 })) =
            ((fun r : PowerRankingRow => (r.name, r.score)) ∘ Prod.snd) from rfl,
          ← List.map_map, List.enum_map_snd]
      rw [h2]
      have h3 := (List.mergeSort_perm (ss.map powerRowOf) powerLe).map
        (fun r : PowerRankingRow => (r.name, r.score))
      rw [List.map_map] at h3
      exact h3
  · intro ss
    by_cases hss : ss.isEmpty
    · rw [List.isEmpty_iff] at hss
      subst hss
      simp [compute_power_rankings]
    · unfold compute_power_rankings
      rw [if_neg hss, List.pairwise_map]
      have hp := List.sorted_mergeSort powerLe_trans powerLe_total (ss.map powerRowOf)
      have he : ((ss.map powerRowOf).mergeSort powerLe).enum.Pairwise
          (fun p q : ℕ × PowerRankingRow => powerLe p.2 q.2 = true) := by
        have h4 := hp
        rw [← List.enum_map_snd ((ss.map powerRowOf).mergeSort powerLe),
          List.pairwise_map] at h4
        exact h4
      exact he.imp (fun hab => by simpa [powerLe] using hab)
  · intro ss i r h
    by_cases hss : ss.isEmpty
    · rw [List.isEmpty_iff] at hss
      subst hss
      simp [compute_power_rankings] at h
    · unfold compute_power_rankings at h
      rw [if_neg hss, List.get?_map, List.get?_enum] at h
      rcases ha : ((ss.map powerRowOf).mergeSort powerLe).get? i with _ | a
      · rw [ha] at h
        simp at h
      · rw [ha] at h
        simp only [Option.map_some] at h
        rw [← Option.some.inj h]
  · have hone : compute_power_rankings [fixPowerRow] = [fixPowerRank1] := by
      unfold compute_power_rankings
      rw [if_neg (by simp)]
      rw [show ([fixPowerRow].map powerRowOf) = [powerRowOf fixPowerRow] from rfl]
      rw [List.mergeSort_singleton]
      rfl
    rw [hone]
    simp only [List.map_cons, List.map_nil, fixPowerRank1]
    norm_num [powerRowOf, round3, power_score, fixPowerRow, round_eq]

/-- Witness for C8 on the single-row standings. -/
theorem compute_power_rankings_shape_witness :
    fixPowerRank1.rank = 0 + 1 :=
  compute_power_rankings_shape.2.2.2.1 [fixPowerRow] 0 fixPowerRank1 (by
    unfold compute_power_rankings
    rw [if_neg (by simp)]
    rw [show ([fixPowerRow].map powerRowOf) = [powerRowOf fixPowerRow] from rfl]
    rw [List.mergeSort_singleton]
    rfl)

/-- C8 counterexample: on a standings row with pointsFor 0.001 the
emitted score is round(0.00001, 3) = 0.0 while the claimed formula value
is 0.00001, so "score = 2*wins − losses + (pf − pa)/100" fails as
stated. -/
theorem compute_power_rankings_score_cex :
    (compute_power_rankings [fixTinyRow]).map (fun r => r.score) = [0] ∧
    power_score fixTinyRow = 1/100000 ∧ (0 : ℚ) ≠ 1/100000 := by
  refine ⟨?_, by norm_num [power_score, fixTinyRow], by norm_num⟩
  have hone : compute_power_rankings [fixTinyRow] = [{ powerRowOf fixTinyRow with rank := 1 }] := by
    unfold compute_power_rankings
    rw [if_neg (by simp)]
    rw [show ([fixTinyRow].map powerRowOf) = [powerRowOf fixTinyRow] from rfl]
    rw [List.mergeSort_singleton]
    rfl
  rw [hone]
  simp only [List.map_cons, List.map_nil]
  norm_num [powerRowOf, round3, power_score, fixTinyRow, round_eq]

-- ==============================
-- C9: narrative composer
-- ==============================

/-- C9: on an empty matchup list the narrative is exactly the
"No results yet" sentence (for week 5, exactly
"No results yet for Week 5."); on a nonempty list the composed text ends
with the lowest-score callout phrased by index (weekNumber − 1) mod 3 and
optionally carries an underperformance callout phrased by the same index;
being a pure function, repeated calls with the same inputs are
identical. -/
theorem build_narrative_rotation :
    (∀ (w : ℤ) (rows : Option (List TeamWeekRow)),
      build_narrative [] w rows = "No results yet for Week " ++ toString w ++ ".") ∧
    build_narrative [] 5 none = "No results yet for Week 5." ∧
    (∀ (m0 : Matchup) (rest : List Matchup) (w : ℤ) (rows : Option (List TeamWeekRow)),
      ∃ under : List String,
        build_narrative (m0 :: rest) w rows =
          String.intercalate " "
            (["Week " ++ toString w ++ " is in the books!",
              " The closest battle was between " ++
                (minBy1 (fun m => m.abs_margin) m0 rest).away ++ " and " ++
                (minBy1 (fun m => m.abs_margin) m0 rest).home ++ ", decided by just " ++
                pyShowFloat (minBy1 (fun m => m.abs_margin) m0 rest).abs_margin ++ " points.",
              " Meanwhile, " ++ (maxBy1 (fun m => m.abs_margin) m0 rest).home ++ " vs " ++
                (maxBy1 (fun m => m.abs_margin) m0 rest).away ++
                " was a blowout with a margin of " ++
                pyShowFloat (maxBy1 (fun m => m.abs_margin) m0 rest).abs_margin ++ "."] ++
             under ++
             [" " ++ narrative_low_callout (m0 :: rest) (((w - 1) % 3).toNat)]) ∧
        (under = [] ∨ ∃ wst, under = [" " ++ u_msg wst (((w - 1) % 3).toNat)])) := by
  refine ⟨fun w rows => rfl, by with_unfolding_all decide, ?_⟩
  intro m0 rest w rows
  refine ⟨if ¬ pyFalsyRows rows then
      match maxFirstBy (fun u => u.2.2.2) (underperfOf (wrList rows)) with
      | some worst => [" " ++ u_msg worst (((w - 1) % 3).toNat)]
      | none => []
    else [], rfl, ?_⟩
  by_cases hf : pyFalsyRows rows
  · left
    simp [hf]
  · rcases hm : maxFirstBy (fun u => u.2.2.2) (underperfOf (wrList rows)) with _ | worst
    · left
      simp [hf, hm]
    · right
      exact ⟨worst, by simp [hf, hm]⟩
